import Mathlib

/-!
Verification of the CapNet capability-enforcement core against its
specification.  The definitions below are shallow embeddings of the
TypeScript sources:

* `sortKeys`, `stableStringify`, `canonicalMessage` embed the canonical
  serializer of shared/src/crypto.ts (stableStringify, sortKeys and the
  domain-prefixed signing message built in signObjectEd25519 and
  verifyObjectEd25519).
* `loadOrCreateIssuerKeys`, `revokeCap`, `isRevoked`, `findCapForAgent`
  embed proxy/src/store.ts.  File-system effects are made explicit: file
  contents are passed in and written contents are returned.
* `validateCartItem`, `validateActionRequest` embed the Zod schemas of
  shared/src/schemas/action.ts (CartItemSchema, ActionRequestSchema),
  including trim/lowercase normalization and the running-total superRefine.
* `evalSpend` and `handleActionRequest` embed the POST /action/request
  handler of proxy/src/index.ts.  Ed25519 verification and Date.parse are
  abstracted as function parameters of the evaluation environment; receipt
  id generation and the current time are likewise inputs.

Machine integers are modelled as `Int` with the explicit safe-integer bound
2^53 - 1 where the code tests Number.isSafeInteger.
-/

namespace CapNet

/-! ## JSON values and the canonical serializer (shared/src/crypto.ts) -/

/-- JSON-shaped values.  Numbers are modelled as integers; the source
rejects non-finite numbers and bigints, and every numeric field in the
protocol is an integer. -/
inductive Json where
  | null : Json
  | bool (b : Bool) : Json
  | num (n : Int) : Json
  | str (s : String) : Json
  | arr (xs : List Json) : Json
  | obj (kvs : List (String × Json)) : Json

/-- Sort an association list of JSON object entries by key, ascending.
Models Object.keys(rec).sort() in sortKeys: JS Array.prototype.sort is a
stable sort under the default string comparison. -/
def sortPairs (kvs : List (String × Json)) : List (String × Json) :=
  kvs.mergeSort (fun p q => decide (p.1 ≤ q.1))

mutual
/-- sortKeys of crypto.ts: recursively sort object keys, preserve array
order, leave primitives unchanged. -/
def sortKeys : Json → Json
  | .null => .null
  | .bool b => .bool b
  | .num n => .num n
  | .str s => .str s
  | .arr xs => .arr (sortKeysList xs)
  | .obj kvs => .obj (sortPairs (sortKeysPairs kvs))

def sortKeysList : List Json → List Json
  | [] => []
  | x :: xs => sortKeys x :: sortKeysList xs

def sortKeysPairs : List (String × Json) → List (String × Json)
  | [] => []
  | p :: ps => (p.1, sortKeys p.2) :: sortKeysPairs ps
end

/-- One hexadecimal digit, lowercase. -/
def hexDigit (n : Nat) : Char :=
  ("0123456789abcdef".toList.getD n '0')

/-- Four-digit hexadecimal rendering used by the \u escape. -/
def hex4 (n : Nat) : String :=
  String.mk [hexDigit (n / 4096 % 16), hexDigit (n / 256 % 16),
             hexDigit (n / 16 % 16), hexDigit (n % 16)]

/-- JSON.stringify escaping of a single character inside a string. -/
def escapeChar (c : Char) : String :=
  if c = '"' then "\\\""
  else if c = '\\' then "\\\\"
  else if c = '\n' then "\\n"
  else if c = '\r' then "\\r"
  else if c = '\t' then "\\t"
  else if c = '\x08' then "\\b"
  else if c = '\x0c' then "\\f"
  else if c.toNat < 32 then "\\u" ++ hex4 c.toNat
  else String.singleton c

/-- JSON.stringify rendering of a string literal, quotes included. -/
def escapeString (s : String) : String :=
  "\"" ++ String.join (s.toList.map escapeChar) ++ "\""

mutual
/-- JSON.stringify on the sorted value: no insignificant whitespace,
object entries and array elements comma separated. -/
def jsonString : Json → String
  | .null => "null"
  | .bool b => if b then "true" else "false"
  | .num n => toString n
  | .str s => escapeString s
  | .arr xs => "[" ++ jsonStringList xs ++ "]"
  | .obj kvs => "\x7b" ++ jsonStringPairs kvs ++ "\x7d"

def jsonStringList : List Json → String
  | [] => ""
  | [x] => jsonString x
  | x :: xs => jsonString x ++ "," ++ jsonStringList xs

def jsonStringPairs : List (String × Json) → String
  | [] => ""
  | [p] => escapeString p.1 ++ ":" ++ jsonString p.2
  | p :: ps => escapeString p.1 ++ ":" ++ jsonString p.2 ++ "," ++ jsonStringPairs ps
end

/-- stableStringify of crypto.ts: JSON.stringify(sortKeys(obj)). -/
def stableStringify (v : Json) : String :=
  jsonString (sortKeys v)

/-- The three signing domains of crypto.ts. -/
inductive SigningDomain where
  | capdoc | receipt | actionrequest
deriving DecidableEq

/-- getDomainPrefix of crypto.ts. -/
def getDomainPrefix : SigningDomain → String
  | .capdoc => "capnet:capdoc/0.1:"
  | .receipt => "capnet:receipt/0.1:"
  | .actionrequest => "capnet:actionrequest/0.1:"

/-- The byte string that signObjectEd25519 and verifyObjectEd25519 sign or
verify: domain prefix concatenated with the stable serialization. -/
def canonicalMessage (domain : SigningDomain) (v : Json) : String :=
  getDomainPrefix domain ++ stableStringify v

/-- Deep equality of JSON values up to reordering of object keys at every
nesting level: arrays keep their order, objects may permute their entry
lists, and entries keep their keys while values are related recursively. -/
inductive JsonKeyPerm : Json → Json → Prop where
  | nullEq : JsonKeyPerm .null .null
  | boolEq (b : Bool) : JsonKeyPerm (.bool b) (.bool b)
  | numEq (n : Int) : JsonKeyPerm (.num n) (.num n)
  | strEq (s : String) : JsonKeyPerm (.str s) (.str s)
  | arrNil : JsonKeyPerm (.arr []) (.arr [])
  | arrCons {x y : Json} {xs ys : List Json} :
      JsonKeyPerm x y → JsonKeyPerm (.arr xs) (.arr ys) →
      JsonKeyPerm (.arr (x :: xs)) (.arr (y :: ys))
  | objNil : JsonKeyPerm (.obj []) (.obj [])
  | objCons {k : String} {v v' : Json} {kvs kvs' : List (String × Json)} :
      JsonKeyPerm v v' → JsonKeyPerm (.obj kvs) (.obj kvs') →
      JsonKeyPerm (.obj ((k, v) :: kvs)) (.obj ((k, v') :: kvs'))
  | objReorder {kvs kvs' : List (String × Json)} {w : Json} :
      kvs.Perm kvs' → JsonKeyPerm (.obj kvs') w → JsonKeyPerm (.obj kvs) w

/-- A JSON value has no duplicate object keys at any nesting level.  JS
records satisfy this by construction; the list model must assume it. -/
inductive NoDupKeys : Json → Prop where
  | null : NoDupKeys .null
  | bool (b : Bool) : NoDupKeys (.bool b)
  | num (n : Int) : NoDupKeys (.num n)
  | str (s : String) : NoDupKeys (.str s)
  | arr {xs : List Json} : (∀ x ∈ xs, NoDupKeys x) → NoDupKeys (.arr xs)
  | obj {kvs : List (String × Json)} :
      (kvs.map Prod.fst).Nodup → (∀ p ∈ kvs, NoDupKeys p.2) →
      NoDupKeys (.obj kvs)

/-! ## Data model (shared/src/schemas/capdoc.ts, action.ts, receipt.ts) -/

/-- Issuer identity embedded in a capability. -/
structure Issuer where
  id : String
  pubkey : String
deriving DecidableEq

/-- Executor binding: the unique agent a capability authorizes. -/
structure Executor where
  agent_id : String
  agent_pubkey : String
deriving DecidableEq

/-- Spend constraints (SpendConstraintsSchema). -/
structure SpendConstraints where
  currency : String
  max_amount_cents : Int
  allowed_vendors : List String
  blocked_categories : List String
deriving DecidableEq

/-- Tool-call constraints (ToolCallConstraintsSchema). -/
structure ToolCallConstraints where
  allowed_tools : List String
  blocked_tool_categories : List String
  max_calls : Option Int
deriving DecidableEq

/-- Tagged constraints union (ConstraintsSchema). -/
inductive Constraints where
  | spend (c : SpendConstraints)
  | toolCall (c : ToolCallConstraints)
deriving DecidableEq

/-- Capability proof object. -/
structure CapProof where
  alg : String
  sig : String
deriving DecidableEq

/-- A capability document (CapDoc).  resource and revocation are flattened
into their fields; subject keeps only its id. -/
structure CapDoc where
  version : String
  cap_id : String
  issued_at : String
  not_before : Option String
  expires_at : String
  issuer : Issuer
  subject_id : String
  executor : Executor
  resource_type : String
  resource_vendor : String
  actions : List String
  constraints : Constraints
  revocation_mode : String
  revocation_oracle : String
  proof : CapProof
deriving DecidableEq

/-- The proof-less body that signatures cover (capUnsignedPayload). -/
structure UnsignedCap where
  version : String
  cap_id : String
  issued_at : String
  not_before : Option String
  expires_at : String
  issuer : Issuer
  subject_id : String
  executor : Executor
  resource_type : String
  resource_vendor : String
  actions : List String
  constraints : Constraints
  revocation_mode : String
  revocation_oracle : String
deriving DecidableEq

/-- capUnsignedPayload of crypto.ts: the capability with proof removed. -/
def capUnsignedPayload (cap : CapDoc) : UnsignedCap :=
  { version := cap.version, cap_id := cap.cap_id, issued_at := cap.issued_at,
    not_before := cap.not_before, expires_at := cap.expires_at,
    issuer := cap.issuer, subject_id := cap.subject_id,
    executor := cap.executor, resource_type := cap.resource_type,
    resource_vendor := cap.resource_vendor, actions := cap.actions,
    constraints := cap.constraints, revocation_mode := cap.revocation_mode,
    revocation_oracle := cap.revocation_oracle }

/-- One cart line of a spend action request. -/
structure CartItem where
  sku : Option String
  name : String
  category : String
  price_cents : Int
  qty : Int
deriving DecidableEq

/-- A spend action request (ActionRequestSchema output shape). -/
structure ActionRequest where
  request_id : String
  ts : String
  agent_id : String
  agent_pubkey : String
  action : String
  vendor : String
  currency : String
  cart : List CartItem
deriving DecidableEq

/-- Receipt summary: the three optional fields of ReceiptSummarySchema. -/
structure ReceiptSummary where
  amount_cents : Option Int
  item_count : Option Int
  denied_reason : Option String
deriving DecidableEq

/-- An audit receipt as emitted by emitReceipt (meta is always the empty
record on every path modelled here and is omitted). -/
structure Receipt where
  receipt_id : String
  ts : String
  event : String
  cap_id : Option String
  request_id : Option String
  agent_id : Option String
  vendor : Option String
  summary : ReceiptSummary
deriving DecidableEq

/-- Decision of an ActionResult. -/
inductive Decision where
  | allow | deny
deriving DecidableEq

/-- The ActionResult returned by the enforcement endpoint. -/
structure ActionResult where
  request_id : String
  decision : Decision
  reason : String
  receipt_id : String
deriving DecidableEq

/-! ## Issuer keys (proxy/src/store.ts, loadOrCreateIssuerKeys) -/

/-- The persisted issuer keypair record. -/
structure IssuerKeys where
  publicKeyB64 : String
  secretKeyB64 : String
deriving DecidableEq

/-- loadOrCreateIssuerKeys of store.ts with the file system made explicit:
the current content of issuer_keys.json (none if absent), the JSON.parse
attempt, and the generator.  Returns the keys the process will use and the
record written back to the file, if any.  On a parse failure the function
falls through to generation and atomically overwrites the file. -/
def loadOrCreateIssuerKeys (existingFile : Option String)
    (parseKeys : String → Option IssuerKeys)
    (generate : Unit → IssuerKeys) : IssuerKeys × Option IssuerKeys :=
  match existingFile with
  | some content =>
    match parseKeys content with
    | some keys => (keys, none)
    | none => let keys := generate (); (keys, some keys)
  | none => let keys := generate (); (keys, some keys)

/-! ## Revocation store (proxy/src/store.ts) -/

/-- revokeCap: add a cap id to the revocation set.  The JS Set is modelled
as a duplicate-free list in insertion order. -/
def revokeCap (revoked : List String) (capId : String) : List String :=
  if revoked.contains capId then revoked else revoked ++ [capId]

/-- isRevoked: membership in the revocation set. -/
def isRevoked (revoked : List String) (capId : String) : Bool :=
  revoked.contains capId

/-- saveRevoked: the JSON value written to revoked.json,
JSON.stringify(Array.from(revokedSet)). -/
def saveRevokedJson (revoked : List String) : Json :=
  .arr (revoked.map .str)

mutual
/-- The JS String() coercion applied by loadRevoked to each parsed element;
arrays join their elements with commas, plain objects print as the usual
object tag. -/
def jsToString : Json → String
  | .null => "null"
  | .bool b => if b then "true" else "false"
  | .num n => toString n
  | .str s => s
  | .arr xs => jsToStringList xs
  | .obj _ => "[object Object]"

def jsToStringList : List Json → String
  | [] => ""
  | [x] => jsToString x
  | x :: xs => jsToString x ++ "," ++ jsToStringList xs
end

/-- loadRevoked: parse revoked.json and add each element, coerced with
String(), to the in-memory set.  Non-array file contents are ignored. -/
def loadRevokedJson (file : Json) (current : List String) : List String :=
  match file with
  | .arr xs => xs.foldl (fun acc x =>
      if acc.contains (jsToString x) then acc else acc ++ [jsToString x]) current
  | _ => current

/-! ## Capability lookup (proxy/src/store.ts, findCapForAgent) -/

/-- The revocation component of the sort key: 1 if revoked else 0. -/
def capRevFlag (revoked : List String) (c : CapDoc) : Int :=
  if revoked.contains c.cap_id then 1 else 0

/-- Date.parse(c.issued_at) with the JS fallback NaN-or-0 to 0. -/
def capIssuedKey (parseDate : String → Option Int) (c : CapDoc) : Int :=
  (parseDate c.issued_at).getD 0

/-- Date.parse(c.expires_at) with the JS fallback NaN-or-0 to 0. -/
def capExpKey (parseDate : String → Option Int) (c : CapDoc) : Int :=
  (parseDate c.expires_at).getD 0

/-- The comparator passed to matching.sort: revocation flag ascending,
issued_at descending, expires_at ascending. -/
def capCmp (parseDate : String → Option Int) (revoked : List String)
    (a b : CapDoc) : Int :=
  if capRevFlag revoked a ≠ capRevFlag revoked b then
    capRevFlag revoked a - capRevFlag revoked b
  else if capIssuedKey parseDate a ≠ capIssuedKey parseDate b then
    capIssuedKey parseDate b - capIssuedKey parseDate a
  else
    capExpKey parseDate a - capExpKey parseDate b

/-- The boolean order induced by the comparator, as used by a stable sort. -/
def capLe (parseDate : String → Option Int) (revoked : List String)
    (a b : CapDoc) : Bool :=
  decide (capCmp parseDate revoked a b ≤ 0)

/-- findCapForAgent of store.ts: filter to exact executor matches, sort
with the comparator, return the head (none when nothing matches).  JS
Array.prototype.sort is stable; mergeSort models it. -/
def findCapForAgent (parseDate : String → Option Int) (revoked : List String)
    (caps : List CapDoc) (agentId agentPubkey : String) : Option CapDoc :=
  let matching := caps.filter (fun c =>
    c.executor.agent_id == agentId && c.executor.agent_pubkey == agentPubkey)
  if matching.isEmpty then none
  else (matching.mergeSort (capLe parseDate revoked)).head?

/-! ## Schema validation (shared/src/schemas/action.ts) -/

/-- Number.isSafeInteger on the integer model: magnitude at most 2^53 - 1. -/
def isSafeInteger (n : Int) : Bool :=
  n.natAbs ≤ 2 ^ 53 - 1

/-- JS String.prototype.trim over the character list. -/
def jsTrim (s : String) : String :=
  String.mk (((s.toList.dropWhile Char.isWhitespace).reverse.dropWhile
    Char.isWhitespace).reverse)

/-- JS String.prototype.toLowerCase, per character. -/
def jsToLower (s : String) : String :=
  String.mk (s.toList.map Char.toLower)

/-- The NormalizedString Zod schema: trim, check the trimmed length is in
[1, 128], then lowercase. -/
def validateNormalized (s : String) : Option String :=
  let t := jsTrim s
  if 1 ≤ t.length ∧ t.length ≤ 128 then some (jsToLower t) else none

/-- Membership in the base64 alphabet. -/
def isB64Char (c : Char) : Bool :=
  c.isAlpha || c.isDigit || c = '+' || c = '/'

/-- The Base64Schema regex: one or more alphabet characters followed by at
most two padding characters. -/
def isBase64Format (s : String) : Bool :=
  let cs := s.toList
  let base := cs.takeWhile isB64Char
  let rest := cs.drop base.length
  1 ≤ base.length && rest.all (· = '=') && rest.length ≤ 2

/-- Ed25519PubkeySchema: base64 format whose stripped length decodes to 32
bytes, floor((len without padding) * 3 / 4) = 32. -/
def isEd25519PubkeyB64 (s : String) : Bool :=
  isBase64Format s &&
    ((s.toList.filter (fun c => c ≠ '=')).length * 3) / 4 == 32

/-- CartItemSchema: field bounds, category normalization, and the refine
that the line total is a safe integer.  Returns the parsed (normalized)
item. -/
def validateCartItem (i : CartItem) : Option CartItem :=
  match i.sku with
  | some sk => if sk.length ≤ 64 then validateCartItemRest i else none
  | none => validateCartItemRest i
where
  validateCartItemRest (i : CartItem) : Option CartItem :=
    if 1 ≤ i.name.length ∧ i.name.length ≤ 256 then
      match validateNormalized i.category with
      | some cat =>
        if 1 ≤ i.price_cents ∧ i.price_cents ≤ 5000000 ∧
            1 ≤ i.qty ∧ i.qty ≤ 1000 then
          if isSafeInteger (i.price_cents * i.qty) then
            some { i with category := cat }
          else none
        else none
      | none => none
    else none

/-- Validate every cart line in order (z.array(CartItemSchema)). -/
def validateCart : List CartItem → Option (List CartItem)
  | [] => some []
  | i :: rest =>
    match validateCartItem i, validateCart rest with
    | some i', some rest' => some (i' :: rest')
    | _, _ => none

/-- The running-total loop of the ActionRequestSchema superRefine: add the
line totals in order and fail as soon as the accumulator leaves the
safe-integer range; returns the final total. -/
def checkRunningTotal (total : Int) : List CartItem → Option Int
  | [] => some total
  | i :: rest =>
    let t := total + i.price_cents * i.qty
    if isSafeInteger t then checkRunningTotal t rest else none

/-- ActionRequestSchema: strict field validation, key normalization of the
vendor, per-item validation, array bounds, then the superRefine checking
the running total stays safe and the final total is positive.  The
isDatetime parameter abstracts z.string().datetime(). -/
def validateActionRequest (isDatetime : String → Bool) (r : ActionRequest) :
    Option ActionRequest :=
  if 8 ≤ r.request_id.length ∧ r.request_id.length ≤ 128 then
    if isDatetime r.ts then
      if 3 ≤ r.agent_id.length ∧ r.agent_id.length ≤ 128 then
        if isEd25519PubkeyB64 r.agent_pubkey then
          if r.action = "spend" then
            match validateNormalized r.vendor with
            | some vendor =>
              if r.currency = "USD" then
                match validateCart r.cart with
                | some cart =>
                  if 1 ≤ cart.length ∧ cart.length ≤ 100 then
                    match checkRunningTotal 0 cart with
                    | some total =>
                      if 0 < total then
                        some { r with vendor := vendor, cart := cart }
                      else none
                    | none => none
                  else none
                | none => none
              else none
            | none => none
          else none
        else none
      else none
    else none
  else none

/-! ## Enforcement (proxy/src/index.ts, POST /action/request) -/

/-- The cart total computed by the handler, sum of price_cents * qty. -/
def cartTotal (cart : List CartItem) : Int :=
  cart.foldl (fun s i => s + i.price_cents * i.qty) 0

/-- The item count computed by the handler, sum of qty. -/
def cartItemCount (cart : List CartItem) : Int :=
  cart.foldl (fun s i => s + i.qty) 0

/-- Inputs of one evaluation that the source obtains from the ambient
process: the Ed25519 verifier (verifyObjectEd25519 on the capdoc domain,
applied to the proof-less payload, the signature and a public key),
Date.parse, Date.now(), the receipt-id generator (makeReceiptId, indexed by
emission order), and the receipt timestamp. -/
structure EvalEnv where
  verify : UnsignedCap → String → String → Bool
  parseDate : String → Option Int
  nowMs : Int
  freshId : Nat → String
  nowIso : String

/-- What the transport layer observes from one handler run. -/
inductive HandlerOutcome where
  | invalidInput
  | amountOverflow
  | result (r : ActionResult)
  | typeError
deriving DecidableEq

/-- The ACTION_ATTEMPT receipt emitted before capability lookup. -/
def attemptReceipt (env : EvalEnv) (req : ActionRequest)
    (totalCents itemCount : Int) : Receipt :=
  { receipt_id := env.freshId 0, ts := env.nowIso, event := "ACTION_ATTEMPT",
    cap_id := none, request_id := some req.request_id,
    agent_id := some req.agent_id, vendor := some req.vendor,
    summary := { amount_cents := some totalCents, item_count := some itemCount,
                 denied_reason := none } }

/-- The deny helper of the handler: emit an ACTION_DENIED receipt and build
the ActionResult carrying its receipt_id. -/
def denyOutcome (env : EvalEnv) (req : ActionRequest) (attempt : Receipt)
    (reason : String) (capId : Option String) :
    List Receipt × HandlerOutcome :=
  let receipt : Receipt :=
    { receipt_id := env.freshId 1, ts := env.nowIso, event := "ACTION_DENIED",
      cap_id := capId, request_id := some req.request_id,
      agent_id := some req.agent_id, vendor := some req.vendor,
      summary := { amount_cents := none, item_count := none,
                   denied_reason := some reason } }
  ([attempt, receipt],
   .result { request_id := req.request_id, decision := .deny, reason := reason,
             receipt_id := receipt.receipt_id })

/-- Steps after the time checks: revocation, then the vendor, category and
amount checks which read cap.constraints.allowed_vendors without narrowing
the union.  When the constraints are tool-call shaped that property access
yields undefined and .includes throws a TypeError, which the transport
surfaces as an uncaught error; the ACTION_ATTEMPT receipt has already been
appended. -/
def spendChecksAfterTime (env : EvalEnv) (revoked : List String)
    (req : ActionRequest) (attempt : Receipt) (totalCents itemCount : Int)
    (cap : CapDoc) : List Receipt × HandlerOutcome :=
  if isRevoked revoked cap.cap_id then
    denyOutcome env req attempt "REVOKED" (some cap.cap_id)
  else
    match cap.constraints with
    | .toolCall _ => ([attempt], .typeError)
    | .spend c =>
      if ¬ c.allowed_vendors.contains req.vendor then
        denyOutcome env req attempt "VENDOR_NOT_ALLOWED" (some cap.cap_id)
      else
        match req.cart.find? (fun i => c.blocked_categories.contains i.category) with
        | some item =>
          denyOutcome env req attempt ("CATEGORY_BLOCKED:" ++ item.category)
            (some cap.cap_id)
        | none =>
          if totalCents > c.max_amount_cents then
            denyOutcome env req attempt "AMOUNT_EXCEEDS_MAX" (some cap.cap_id)
          else
            let receipt : Receipt :=
              { receipt_id := env.freshId 1, ts := env.nowIso,
                event := "ACTION_ALLOWED", cap_id := some cap.cap_id,
                request_id := some req.request_id,
                agent_id := some req.agent_id, vendor := some req.vendor,
                summary := { amount_cents := some totalCents,
                             item_count := some itemCount,
                             denied_reason := none } }
            ([attempt, receipt],
             .result { request_id := req.request_id, decision := .allow,
                       reason := "ALLOWED", receipt_id := receipt.receipt_id })

/-- The verification pipeline on the selected capability: signature first,
then executor binding, then the time checks, then the rest.  The empty
not_before string is skipped because the source guards it with JS
truthiness. -/
def evalSpendCap (env : EvalEnv) (revoked : List String) (req : ActionRequest)
    (attempt : Receipt) (totalCents itemCount : Int) (cap : CapDoc) :
    List Receipt × HandlerOutcome :=
  if ¬ env.verify (capUnsignedPayload cap) cap.proof.sig cap.issuer.pubkey then
    denyOutcome env req attempt "BAD_SIGNATURE" (some cap.cap_id)
  else if cap.executor.agent_id != req.agent_id ||
      cap.executor.agent_pubkey != req.agent_pubkey then
    denyOutcome env req attempt "EXECUTOR_MISMATCH" (some cap.cap_id)
  else
    match env.parseDate cap.expires_at with
    | none => denyOutcome env req attempt "BAD_CAPABILITY_TIME" (some cap.cap_id)
    | some expMs =>
      if expMs < env.nowMs then
        denyOutcome env req attempt "CAP_EXPIRED" (some cap.cap_id)
      else
        match cap.not_before with
        | none => spendChecksAfterTime env revoked req attempt totalCents itemCount cap
        | some nb =>
          if nb == "" then
            spendChecksAfterTime env revoked req attempt totalCents itemCount cap
          else
            match env.parseDate nb with
            | none => denyOutcome env req attempt "BAD_CAPABILITY_TIME" (some cap.cap_id)
            | some nbMs =>
              if nbMs > env.nowMs then
                denyOutcome env req attempt "CAP_NOT_YET_VALID" (some cap.cap_id)
              else
                spendChecksAfterTime env revoked req attempt totalCents itemCount cap

/-- The handler body after schema validation: compute the totals, return
AMOUNT_OVERFLOW before emitting anything when the total is not safe,
otherwise emit ACTION_ATTEMPT, look the capability up and run the
verification pipeline.  Returns the receipts appended to the audit log in
order, and the transport outcome. -/
def evalSpend (env : EvalEnv) (caps : List CapDoc) (revoked : List String)
    (req : ActionRequest) : List Receipt × HandlerOutcome :=
  let totalCents := cartTotal req.cart
  let itemCount := cartItemCount req.cart
  if ¬ isSafeInteger totalCents then ([], .amountOverflow)
  else
    let attempt := attemptReceipt env req totalCents itemCount
    match findCapForAgent env.parseDate revoked caps req.agent_id req.agent_pubkey with
    | none => denyOutcome env req attempt "NO_CAPABILITY" none
    | some cap => evalSpendCap env revoked req attempt totalCents itemCount cap

/-- The full POST /action/request handler: Zod validation first (INVALID_INPUT
on rejection, before any receipt), then the evaluation body. -/
def handleActionRequest (env : EvalEnv) (caps : List CapDoc)
    (revoked : List String) (isDatetime : String → Bool) (raw : ActionRequest) :
    List Receipt × HandlerOutcome :=
  match validateActionRequest isDatetime raw with
  | none => ([], .invalidInput)
  | some req => evalSpend env caps revoked req

/-- The time checks of the pipeline succeed: expires_at parses to a time
not strictly before now, and any (truthy) not_before parses to a time not
strictly after now. -/
def TimeOk (env : EvalEnv) (cap : CapDoc) : Prop :=
  (∃ e, env.parseDate cap.expires_at = some e ∧ ¬ e < env.nowMs) ∧
  (∀ nb, cap.not_before = some nb → nb ≠ "" →
    ∃ m, env.parseDate nb = some m ∧ ¬ env.nowMs < m)

/-! ## Concrete fixtures used by witnesses and counterexamples -/

/-- A timestamp table standing in for Date.parse on the strings used in
the fixtures; everything else is unparseable (NaN). -/
def pdW : String → Option Int := fun s =>
  if s == "T100" then some 100
  else if s == "T200" then some 200
  else if s == "T900" then some 900
  else if s == "T1000" then some 1000
  else none

/-- Spend constraints shared by the fixture capabilities. -/
def spendW : SpendConstraints :=
  { currency := "USD", max_amount_cents := 5000,
    allowed_vendors := ["sandboxmart"], blocked_categories := ["alcohol"] }

/-- A fixture capability bound to agent:demo, issued at T200, expiring at
T900. -/
def capA : CapDoc :=
  { version := "capdoc/0.1", cap_id := "cap_A0000001", issued_at := "T200",
    not_before := none, expires_at := "T900",
    issuer := { id := "wallet:local", pubkey := "ISSPK" },
    subject_id := "user:local",
    executor := { agent_id := "agent:demo", agent_pubkey := "PK" },
    resource_type := "spend", resource_vendor := "sandboxmart",
    actions := ["spend"], constraints := .spend spendW,
    revocation_mode := "strict", revocation_oracle := "local_proxy",
    proof := { alg := "ed25519", sig := "SIGA" } }

/-- A second fixture capability for the same agent, issued earlier. -/
def capB : CapDoc :=
  { capA with
    cap_id := "cap_B0000001",
    issued_at := "T100",
    proof := { alg := "ed25519", sig := "SIGB" } }

/-- The fixture revocation set: capA is revoked. -/
def revW : List String := ["cap_A0000001"]

/-- The empty revocation set. -/
def revNone : List String := []

/-- A fixture spend request from agent:demo at vendor sandboxmart. -/
def reqW : ActionRequest :=
  { request_id := "req_00000001", ts := "T200", agent_id := "agent:demo",
    agent_pubkey := "PK", action := "spend", vendor := "sandboxmart",
    currency := "USD",
    cart := [{ sku := none, name := "Organic Milk", category := "grocery",
               price_cents := 599, qty := 2 }] }

/-- A fixture evaluation environment: the verifier accepts exactly the
fixture signatures against the fixture issuer key, now is 500 ms (between
issuance at T200 and expiry at T900), and receipt ids come from the
emission index. -/
def envW : EvalEnv :=
  { verify := fun _ sig pk => (sig == "SIGA" || sig == "SIGB") && pk == "ISSPK",
    parseDate := pdW, nowMs := 500,
    freshId := fun n => if n == 0 then "rcpt_000a" else "rcpt_000b",
    nowIso := "T500" }

/-- The fixture environment at a later time: now is 1000 ms, strictly past
the T900 expiry of the fixture capabilities. -/
def env1000 : EvalEnv :=
  { envW with nowMs := 1000, nowIso := "T1000" }

/-- A fixture capability whose expiry parses to exactly 1000 ms, the
current time of env1000. -/
def capC : CapDoc :=
  { capA with
    cap_id := "cap_C0000001",
    expires_at := "T1000" }

/-- A 43-character base64 string whose stripped length decodes to 32 bytes,
an acceptable Ed25519 public key for the schema. -/
def pkW : String := "AAAAAAAAAAAAAAAAAAAAAAAAAAAAAAAAAAAAAAAAAAA"

/-- A fixture tool-call capability: actions do not contain spend and the
constraints are tool-call shaped.  Its signature and executor binding are
valid under the fixture environment. -/
def capT : CapDoc :=
  { capA with
    cap_id := "cap_T0000001",
    executor := { agent_id := "agent:demo", agent_pubkey := pkW },
    resource_type := "generic",
    actions := ["tool_call"],
    constraints := .toolCall
      { allowed_tools := ["web_search"], blocked_tool_categories := [],
        max_calls := none } }

/-- A schema-valid fixture spend request bound to the pkW agent key. -/
def reqX : ActionRequest :=
  { request_id := "req_00000002", ts := "T200", agent_id := "agent:demo",
    agent_pubkey := pkW, action := "spend", vendor := "sandboxmart",
    currency := "USD",
    cart := [{ sku := none, name := "Organic Milk", category := "grocery",
               price_cents := 599, qty := 2 }] }

/-- A second schema-valid fixture request with a distinct request id. -/
def reqY : ActionRequest :=
  { reqX with request_id := "req_00000003" }

/-- A raw request whose single cart line multiplies to 2^54, outside the
safe-integer range (and far outside the per-item schema bounds). -/
def rawBad : ActionRequest :=
  { reqX with
    request_id := "req_00000004",
    cart := [{ sku := none, name := "X", category := "grocery",
               price_cents := 18014398509481984, qty := 1 }] }

/-- A JSON.parse attempt that always fails, modelling a corrupt
issuer_keys.json. -/
def parseFailW : String → Option IssuerKeys := fun _ => none

/-- A generator producing a fresh keypair distinct from the ISSPK issuer
key embedded in the fixture capabilities. -/
def genW : Unit → IssuerKeys :=
  fun _ => { publicKeyB64 := "NEWPK", secretKeyB64 := "NEWSK" }

/-- A nested fixture JSON object. -/
def vExInner : Json := .obj [("y", .str "s"), ("x", .null)]

/-- The same nested object with its keys listed in the other order. -/
def wExInner : Json := .obj [("x", .null), ("y", .str "s")]

/-- A fixture JSON value with two levels of objects. -/
def vEx : Json := .obj [("b", .num 1), ("a", vExInner)]

/-- The same JSON value with keys reordered at both nesting levels. -/
def wEx : Json := .obj [("a", wExInner), ("b", .num 1)]

/-! ## Sorting helpers -/

theorem mergeSort_singleton {α : Type} (le : α → α → Bool) (a : α) :
    [a].mergeSort le = [a] :=
  List.perm_singleton.mp (List.mergeSort_perm [a] le)

theorem mergeSort_pair {α : Type} {le : α → α → Bool}
    (htrans : ∀ a b c, le a b = true → le b c = true → le a c = true)
    (htotal : ∀ a b, (le a b || le b a) = true) (a b : α) :
    [a, b].mergeSort le = if le a b then [a, b] else [b, a] := by
  obtain ⟨l₁, l₂, h1, h2, h3⟩ := List.mergeSort_cons htrans htotal a [b]
  rw [mergeSort_singleton] at h2
  have hsorted := List.sorted_mergeSort htrans htotal (a :: [b])
  rcases l₁ with _ | ⟨x, l₁'⟩
  · simp only [List.nil_append] at h1 h2
    subst h2
    have hle : le a b = true := by
      rw [h1] at hsorted
      exact List.rel_of_pairwise_cons hsorted (by simp)
    rw [h1, hle]
    simp
  · rw [List.cons_append] at h2
    injection h2 with hxb htail
    have htail' : l₁' = [] ∧ l₂ = [] := List.append_eq_nil.mp htail.symm
    obtain ⟨hl₁, hl₂⟩ := htail'
    subst hxb; subst hl₁; subst hl₂
    have hnle : le a b = false := by
      have := h3 b (by simp)
      simpa using this
    rw [h1, hnle]
    simp

/-! ## The comparator order of findCapForAgent -/

theorem capCmp_le_zero_iff (pd : String → Option Int) (rev : List String)
    (a b : CapDoc) :
    capCmp pd rev a b ≤ 0 ↔
      (capRevFlag rev a < capRevFlag rev b ∨
       (capRevFlag rev a = capRevFlag rev b ∧
        (capIssuedKey pd b < capIssuedKey pd a ∨
         (capIssuedKey pd a = capIssuedKey pd b ∧
          capExpKey pd a ≤ capExpKey pd b)))) := by
  unfold capCmp
  split_ifs with h1 h2 <;> omega

theorem capLe_trans (pd : String → Option Int) (rev : List String) :
    ∀ a b c, capLe pd rev a b = true → capLe pd rev b c = true →
      capLe pd rev a c = true := by
  intro a b c h1 h2
  simp only [capLe, decide_eq_true_eq, capCmp_le_zero_iff] at h1 h2 ⊢
  omega

theorem capLe_total (pd : String → Option Int) (rev : List String) :
    ∀ a b, (capLe pd rev a b || capLe pd rev b a) = true := by
  intro a b
  simp only [capLe, Bool.or_eq_true, decide_eq_true_eq, capCmp_le_zero_iff]
  omega

theorem capLe_refl (pd : String → Option Int) (rev : List String) (a : CapDoc) :
    capLe pd rev a a = true :=
  decide_eq_true (by rw [capCmp_le_zero_iff]; omega)

/-! ## C7: findCapForAgent lookup contract -/

/-- C7.  findCapForAgent returns a capability only if its executor fields
exactly equal the queried agent_id and agent_pubkey, returning none exactly
when no stored capability matches; any returned capability is minimal among
all matching capabilities under the composite order: revocation flag
ascending (unrevoked before revoked), then issued_at descending (newest
first), then expires_at ascending.  Revoked capabilities are therefore
still returned when no unrevoked capability matches. -/
theorem findCapForAgent_spec (pd : String → Option Int) (rev : List String)
    (caps : List CapDoc) (agentId agentPubkey : String) :
    (findCapForAgent pd rev caps agentId agentPubkey = none ↔
      ∀ c ∈ caps, ¬(c.executor.agent_id = agentId ∧
        c.executor.agent_pubkey = agentPubkey)) ∧
    (∀ c, findCapForAgent pd rev caps agentId agentPubkey = some c →
      c ∈ caps ∧ c.executor.agent_id = agentId ∧
      c.executor.agent_pubkey = agentPubkey ∧
      ∀ c' ∈ caps, c'.executor.agent_id = agentId →
        c'.executor.agent_pubkey = agentPubkey →
        (capRevFlag rev c < capRevFlag rev c' ∨
         (capRevFlag rev c = capRevFlag rev c' ∧
          (capIssuedKey pd c' < capIssuedKey pd c ∨
           (capIssuedKey pd c = capIssuedKey pd c' ∧
            capExpKey pd c ≤ capExpKey pd c'))))) := by
  have hperm := List.mergeSort_perm
    (caps.filter (fun c => c.executor.agent_id == agentId &&
      c.executor.agent_pubkey == agentPubkey)) (capLe pd rev)
  constructor
  · by_cases hm : (caps.filter (fun c => c.executor.agent_id == agentId &&
        c.executor.agent_pubkey == agentPubkey)).isEmpty
    · rw [List.isEmpty_iff] at hm
      simp only [findCapForAgent, hm]
      rw [List.filter_eq_nil_iff] at hm
      simp only [List.isEmpty_nil, if_true]
      constructor
      · intro _ c hc hmatch
        have := hm c hc
        simp only [Bool.and_eq_true, beq_iff_eq] at this
        exact this ⟨hmatch.1, hmatch.2⟩
      · intro _; trivial
    · rw [Bool.not_eq_true] at hm
      simp only [findCapForAgent, hm, Bool.false_eq_true, if_false]
      rw [← Bool.not_eq_true, List.isEmpty_iff] at hm
      constructor
      · intro hnone
        have hlen := hperm.length_eq
        rcases hsort : (caps.filter (fun c => c.executor.agent_id == agentId &&
            c.executor.agent_pubkey == agentPubkey)).mergeSort (capLe pd rev) with
          _ | ⟨a, t⟩
        · rw [hsort] at hlen
          exact absurd (List.length_eq_zero.mp hlen.symm) hm
        · rw [hsort] at hnone
          simp at hnone
      · intro hall
        exfalso
        apply hm
        rw [List.filter_eq_nil_iff]
        intro c hc
        simp only [Bool.and_eq_true, beq_iff_eq, not_and]
        intro h1 h2
        exact hall c hc ⟨h1, h2⟩
  · intro c hc
    by_cases hm : (caps.filter (fun c => c.executor.agent_id == agentId &&
        c.executor.agent_pubkey == agentPubkey)).isEmpty
    · simp only [findCapForAgent, hm, if_true] at hc
      exact absurd hc (by simp)
    · rw [Bool.not_eq_true] at hm
      simp only [findCapForAgent, hm, Bool.false_eq_true, if_false] at hc
      have hsorted := List.sorted_mergeSort (capLe_trans pd rev)
        (capLe_total pd rev)
        (caps.filter (fun c => c.executor.agent_id == agentId &&
          c.executor.agent_pubkey == agentPubkey))
      have hmemc : c ∈ (caps.filter (fun c => c.executor.agent_id == agentId &&
          c.executor.agent_pubkey == agentPubkey)).mergeSort (capLe pd rev) :=
        List.mem_of_mem_head? hc
      have hcf := (hperm.mem_iff).mp hmemc
      rw [List.mem_filter] at hcf
      obtain ⟨hcaps, hpred⟩ := hcf
      simp only [Bool.and_eq_true, beq_iff_eq] at hpred
      refine ⟨hcaps, hpred.1, hpred.2, ?_⟩
      intro c' hc' h1 h2
      have hcf' : c' ∈ (caps.filter (fun c => c.executor.agent_id == agentId &&
          c.executor.agent_pubkey == agentPubkey)).mergeSort (capLe pd rev) := by
        rw [hperm.mem_iff, List.mem_filter]
        exact ⟨hc', by simp [h1, h2]⟩
      have hle : capLe pd rev c c' = true := by
        rcases hsort : (caps.filter (fun c => c.executor.agent_id == agentId &&
            c.executor.agent_pubkey == agentPubkey)).mergeSort (capLe pd rev) with
          _ | ⟨a, t⟩
        · rw [hsort] at hmemc; simp at hmemc
        · rw [hsort] at hc hcf'
          simp only [List.head?_cons, Option.some.injEq] at hc
          subst hc
          rcases List.mem_cons.mp hcf' with h | h
          · subst h; exact capLe_refl pd rev c'
          · rw [hsort] at hsorted
            exact List.rel_of_pairwise_cons hsorted h
      simp only [capLe, decide_eq_true_eq, capCmp_le_zero_iff] at hle
      exact hle

/-- Witness for C7 at a concrete two-capability store: both capabilities
match agent:demo, capA is revoked and newer, capB unrevoked and older; the
lookup returns the unrevoked capB, whose revocation flag is strictly
smaller. -/
theorem findCapForAgent_spec_witness :
    findCapForAgent pdW revW [capA, capB] "agent:demo" "PK" = some capB ∧
    capB ∈ [capA, capB] ∧ capB.executor.agent_id = "agent:demo" ∧
    capB.executor.agent_pubkey = "PK" ∧
    capRevFlag revW capB < capRevFlag revW capA := by
  have hle : capLe pdW revW capA capB = false := by decide
  have hpair := mergeSort_pair (capLe_trans pdW revW) (capLe_total pdW revW)
    capA capB
  rw [hle] at hpair
  simp only [Bool.false_eq_true, if_false] at hpair
  have hfil : [capA, capB].filter (fun c => c.executor.agent_id == "agent:demo" &&
      c.executor.agent_pubkey == "PK") = [capA, capB] := by decide
  have hfind : findCapForAgent pdW revW [capA, capB] "agent:demo" "PK" =
      some capB := by
    unfold findCapForAgent
    simp only [hfil, hpair, List.isEmpty_cons, List.head?_cons]
    decide
  have hmain := (findCapForAgent_spec pdW revW [capA, capB] "agent:demo" "PK").2
    capB hfind
  refine ⟨hfind, hmain.1, hmain.2.1, hmain.2.2.1, ?_⟩
  have := hmain.2.2.2 capA (by simp) (by decide) (by decide)
  have hA : capRevFlag revW capA = 1 := by decide
  have hB : capRevFlag revW capB = 0 := by decide
  omega

/-! ## Enforcement pipeline lemmas -/

theorem evalSpend_eq_of_safe (env : EvalEnv) (caps : List CapDoc)
    (rev : List String) (req : ActionRequest)
    (hsafe : isSafeInteger (cartTotal req.cart) = true) :
    evalSpend env caps rev req =
      match findCapForAgent env.parseDate rev caps req.agent_id req.agent_pubkey with
      | none => denyOutcome env req
          (attemptReceipt env req (cartTotal req.cart) (cartItemCount req.cart))
          "NO_CAPABILITY" none
      | some cap => evalSpendCap env rev req
          (attemptReceipt env req (cartTotal req.cart) (cartItemCount req.cart))
          (cartTotal req.cart) (cartItemCount req.cart) cap := by
  unfold evalSpend
  simp [hsafe]

theorem evalSpend_eq_of_find (env : EvalEnv) (caps : List CapDoc)
    (rev : List String) (req : ActionRequest) (cap : CapDoc)
    (hsafe : isSafeInteger (cartTotal req.cart) = true)
    (hfind : findCapForAgent env.parseDate rev caps req.agent_id
      req.agent_pubkey = some cap) :
    evalSpend env caps rev req = evalSpendCap env rev req
      (attemptReceipt env req (cartTotal req.cart) (cartItemCount req.cart))
      (cartTotal req.cart) (cartItemCount req.cart) cap := by
  rw [evalSpend_eq_of_safe env caps rev req hsafe, hfind]

theorem spendChecksAfterTime_revoked (env : EvalEnv) (rev : List String)
    (req : ActionRequest) (attempt : Receipt) (total items : Int) (cap : CapDoc)
    (hrev : isRevoked rev cap.cap_id = true) :
    spendChecksAfterTime env rev req attempt total items cap =
      denyOutcome env req attempt "REVOKED" (some cap.cap_id) := by
  unfold spendChecksAfterTime
  rw [hrev]
  simp

theorem evalSpendCap_revoked_denies (env : EvalEnv) (rev : List String)
    (req : ActionRequest) (attempt : Receipt) (total items : Int) (cap : CapDoc)
    (hrev : isRevoked rev cap.cap_id = true) :
    ∃ reason, evalSpendCap env rev req attempt total items cap =
      denyOutcome env req attempt reason (some cap.cap_id) := by
  have hrevd := spendChecksAfterTime_revoked env rev req attempt total items cap hrev
  cases hv : env.verify (capUnsignedPayload cap) cap.proof.sig cap.issuer.pubkey with
  | false => exact ⟨"BAD_SIGNATURE", by simp [evalSpendCap, hv]⟩
  | true =>
    cases hx : (cap.executor.agent_id != req.agent_id ||
        cap.executor.agent_pubkey != req.agent_pubkey) with
    | true => exact ⟨"EXECUTOR_MISMATCH", by simp [evalSpendCap, hv, hx]⟩
    | false =>
      cases hexp : env.parseDate cap.expires_at with
      | none => exact ⟨"BAD_CAPABILITY_TIME", by simp [evalSpendCap, hv, hx, hexp]⟩
      | some e =>
        by_cases he : e < env.nowMs
        · exact ⟨"CAP_EXPIRED", by simp [evalSpendCap, hv, hx, hexp, he]⟩
        · cases hnb : cap.not_before with
          | none => exact ⟨"REVOKED", by simp [evalSpendCap, hv, hx, hexp, he, hnb, hrevd]⟩
          | some nb =>
            by_cases hne : nb == ""
            · exact ⟨"REVOKED", by simp [evalSpendCap, hv, hx, hexp, he, hnb, hne, hrevd]⟩
            · cases hnbp : env.parseDate nb with
              | none => exact ⟨"BAD_CAPABILITY_TIME",
                  by simp [evalSpendCap, hv, hx, hexp, he, hnb, hne, hnbp]⟩
              | some m =>
                by_cases hm : m > env.nowMs
                · exact ⟨"CAP_NOT_YET_VALID",
                    by simp [evalSpendCap, hv, hx, hexp, he, hnb, hne, hnbp, hm]⟩
                · exact ⟨"REVOKED",
                    by simp [evalSpendCap, hv, hx, hexp, he, hnb, hne, hnbp, hm, hrevd]⟩

theorem evalSpendCap_pass_to_checks (env : EvalEnv) (rev : List String)
    (req : ActionRequest) (attempt : Receipt) (total items : Int) (cap : CapDoc)
    (hv : env.verify (capUnsignedPayload cap) cap.proof.sig cap.issuer.pubkey = true)
    (h1 : cap.executor.agent_id = req.agent_id)
    (h2 : cap.executor.agent_pubkey = req.agent_pubkey)
    (ht : TimeOk env cap) :
    evalSpendCap env rev req attempt total items cap =
      spendChecksAfterTime env rev req attempt total items cap := by
  obtain ⟨⟨e, hexp, he⟩, hnb⟩ := ht
  cases hnbv : cap.not_before with
  | none => simp [evalSpendCap, hv, h1, h2, hexp, he, hnbv]
  | some nb =>
    by_cases hne : nb = ""
    · simp [evalSpendCap, hv, h1, h2, hexp, he, hnbv, hne]
    · obtain ⟨m, hm, hmle⟩ := hnb nb hnbv hne
      simp [evalSpendCap, hv, h1, h2, hexp, he, hnbv, hne, hm, hmle]

theorem findCapForAgent_singleton (pd : String → Option Int) (rev : List String)
    (cap : CapDoc) (aid apk : String)
    (h1 : cap.executor.agent_id = aid) (h2 : cap.executor.agent_pubkey = apk) :
    findCapForAgent pd rev [cap] aid apk = some cap := by
  unfold findCapForAgent
  simp [h1, h2, mergeSort_singleton]

/-! ## Revocation set monotonicity and persistence -/

theorem mem_revokeCap_of_mem (s : List String) (i x : String) (hx : x ∈ s) :
    x ∈ revokeCap s i := by
  unfold revokeCap
  split
  · exact hx
  · exact List.mem_append_left _ hx

theorem mem_revokeCap_self (s : List String) (i : String) : i ∈ revokeCap s i := by
  unfold revokeCap
  split
  · rename_i h
    exact List.mem_of_elem_eq_true h
  · exact List.mem_append_right _ (by simp)

theorem mem_loadRevoked_foldl (xs : List Json) :
    ∀ (acc : List String) (x : String),
      (x ∈ acc ∨ ∃ j ∈ xs, jsToString j = x) →
      x ∈ xs.foldl (fun acc j =>
        if acc.contains (jsToString j) then acc else acc ++ [jsToString j]) acc := by
  induction xs with
  | nil =>
    intro acc x hx
    simpa using hx.resolve_right (by simp)
  | cons j rest ih =>
    intro acc x hx
    rw [List.foldl_cons]
    apply ih
    rcases hx with hacc | ⟨j', hj', hjs⟩
    · left
      split
      · exact hacc
      · exact List.mem_append_left _ hacc
    · rcases List.mem_cons.mp hj' with rfl | hrest
      · left
        split
        · rename_i h
          exact hjs ▸ List.mem_of_elem_eq_true h
        · exact hjs ▸ List.mem_append_right _ (by simp)
      · exact Or.inr ⟨j', hrest, hjs⟩

theorem mem_loadRevoked_roundtrip (s : List String) (x : String) (hx : x ∈ s) :
    x ∈ loadRevokedJson (saveRevokedJson s) [] := by
  unfold loadRevokedJson saveRevokedJson
  apply mem_loadRevoked_foldl
  exact Or.inr ⟨.str x, List.mem_map_of_mem _ hx, by simp [jsToString]⟩

/-! ## C1: revocation is permanent and revoked capabilities are denied -/

/-- C1 (amended).  The revocation set only ever grows: revokeCap preserves
membership and adds its argument, and reloading the persisted set restores
every member.  Whenever the capability lookup yields a revoked capability
(and the request passed the amount-safety check), the decision is a deny;
the reason is REVOKED exactly when the signature, executor-binding and time
checks pass, while an earlier failing check surfaces its own reason first
because the source checks expiry before revocation. -/
theorem revoked_cap_always_denied :
    (∀ (env : EvalEnv) (caps : List CapDoc) (rev : List String)
       (req : ActionRequest) (cap : CapDoc),
       findCapForAgent env.parseDate rev caps req.agent_id req.agent_pubkey = some cap →
       isRevoked rev cap.cap_id = true →
       isSafeInteger (cartTotal req.cart) = true →
       ∃ reason, (evalSpend env caps rev req).2 =
         .result { request_id := req.request_id, decision := .deny,
                   reason := reason, receipt_id := env.freshId 1 }) ∧
    (∀ (env : EvalEnv) (caps : List CapDoc) (rev : List String)
       (req : ActionRequest) (cap : CapDoc),
       findCapForAgent env.parseDate rev caps req.agent_id req.agent_pubkey = some cap →
       isRevoked rev cap.cap_id = true →
       isSafeInteger (cartTotal req.cart) = true →
       env.verify (capUnsignedPayload cap) cap.proof.sig cap.issuer.pubkey = true →
       cap.executor.agent_id = req.agent_id →
       cap.executor.agent_pubkey = req.agent_pubkey →
       TimeOk env cap →
       (evalSpend env caps rev req).2 =
         .result { request_id := req.request_id, decision := .deny,
                   reason := "REVOKED", receipt_id := env.freshId 1 }) ∧
    (∀ (s : List String) (i x : String), x ∈ s → x ∈ revokeCap s i) ∧
    (∀ (s : List String) (i : String), i ∈ revokeCap s i) ∧
    (∀ (s : List String) (x : String), x ∈ s →
      x ∈ loadRevokedJson (saveRevokedJson s) []) := by
  refine ⟨?_, ?_, mem_revokeCap_of_mem, mem_revokeCap_self, mem_loadRevoked_roundtrip⟩
  · intro env caps rev req cap hfind hrev hsafe
    rw [evalSpend_eq_of_find env caps rev req cap hsafe hfind]
    obtain ⟨reason, hr⟩ := evalSpendCap_revoked_denies env rev req
      (attemptReceipt env req (cartTotal req.cart) (cartItemCount req.cart))
      (cartTotal req.cart) (cartItemCount req.cart) cap hrev
    rw [hr]
    exact ⟨reason, by simp [denyOutcome]⟩
  · intro env caps rev req cap hfind hrev hsafe hv h1 h2 ht
    rw [evalSpend_eq_of_find env caps rev req cap hsafe hfind,
      evalSpendCap_pass_to_checks env rev req _ _ _ cap hv h1 h2 ht,
      spendChecksAfterTime_revoked env rev req _ _ _ cap hrev]
    simp [denyOutcome]

/-- Counterexample to C1 as stated: capA is revoked and the lookup yields
it, yet the enforcement decision reason is CAP_EXPIRED, not REVOKED,
because at time 1000 the capability is also past its T900 expiry and the
source checks expiry before revocation. -/
theorem revoked_cap_always_denied_counterexample :
    isRevoked revW capA.cap_id = true ∧
    findCapForAgent env1000.parseDate revW [capA] reqW.agent_id reqW.agent_pubkey =
      some capA ∧
    (evalSpend env1000 [capA] revW reqW).2 =
      .result { request_id := "req_00000001", decision := .deny,
                reason := "CAP_EXPIRED", receipt_id := "rcpt_000b" } ∧
    (evalSpend env1000 [capA] revW reqW).2 ≠
      .result { request_id := "req_00000001", decision := .deny,
                reason := "REVOKED", receipt_id := "rcpt_000b" } := by
  have hfind := findCapForAgent_singleton env1000.parseDate revW capA
    reqW.agent_id reqW.agent_pubkey (by decide) (by decide)
  have heval := evalSpend_eq_of_find env1000 [capA] revW reqW capA (by decide) hfind
  refine ⟨by decide, hfind, ?_, ?_⟩ <;> rw [heval] <;> decide

/-- Witness for the amended C1: a revoked, unexpired capability with a
valid signature and executor binding is denied with reason REVOKED, and the
monotonicity and persistence statements hold at concrete inputs. -/
theorem revoked_cap_always_denied_witness :
    (evalSpend envW [capA] revW reqW).2 =
      .result { request_id := "req_00000001", decision := .deny,
                reason := "REVOKED", receipt_id := "rcpt_000b" } ∧
    "cap_A0000001" ∈ revokeCap ["cap_A0000001"] "cap_B0000001" ∧
    "cap_B0000001" ∈ revokeCap ["cap_A0000001"] "cap_B0000001" ∧
    "cap_A0000001" ∈ loadRevokedJson (saveRevokedJson revW) [] := by
  have hfind := findCapForAgent_singleton envW.parseDate revW capA
    reqW.agent_id reqW.agent_pubkey (by decide) (by decide)
  have ht : TimeOk envW capA := by
    refine ⟨⟨900, by decide, by decide⟩, ?_⟩
    intro nb hnb
    simp [capA] at hnb
  refine ⟨?_, ?_, ?_, ?_⟩
  · exact revoked_cap_always_denied.2.1 envW [capA] revW reqW capA hfind
      (by decide) (by decide) (by decide) (by decide) (by decide) ht
  · exact revoked_cap_always_denied.2.2.1 ["cap_A0000001"] "cap_B0000001"
      "cap_A0000001" (by simp)
  · exact revoked_cap_always_denied.2.2.2.1 ["cap_A0000001"] "cap_B0000001"
  · exact revoked_cap_always_denied.2.2.2.2 revW "cap_A0000001" (by simp [revW])

/-! ## C2: expiry is checked before revocation -/

/-- C2 (amended).  When the selected capability is simultaneously revoked
and expired and its signature and executor binding are valid, the pipeline
returns CAP_EXPIRED, not REVOKED: the source checks expiry (step 3) before
revocation (step 4). -/
theorem revoked_expired_yields_cap_expired
    (env : EvalEnv) (caps : List CapDoc) (rev : List String)
    (req : ActionRequest) (cap : CapDoc) (e : Int)
    (hfind : findCapForAgent env.parseDate rev caps req.agent_id
      req.agent_pubkey = some cap)
    (hsafe : isSafeInteger (cartTotal req.cart) = true)
    (_hrev : isRevoked rev cap.cap_id = true)
    (hv : env.verify (capUnsignedPayload cap) cap.proof.sig cap.issuer.pubkey = true)
    (h1 : cap.executor.agent_id = req.agent_id)
    (h2 : cap.executor.agent_pubkey = req.agent_pubkey)
    (hexp : env.parseDate cap.expires_at = some e)
    (he : e < env.nowMs) :
    (evalSpend env caps rev req).2 =
      .result { request_id := req.request_id, decision := .deny,
                reason := "CAP_EXPIRED", receipt_id := env.freshId 1 } := by
  rw [evalSpend_eq_of_find env caps rev req cap hsafe hfind]
  simp [evalSpendCap, hv, h1, h2, hexp, he, denyOutcome]

/-- Counterexample to C2 as stated: at time 1000 capA is revoked, expired
at T900, with a valid signature and executor binding, yet the denial reason
is CAP_EXPIRED rather than the claimed REVOKED. -/
theorem revoked_expired_yields_cap_expired_counterexample :
    isRevoked revW capA.cap_id = true ∧
    env1000.parseDate capA.expires_at = some 900 ∧
    (900 : Int) < env1000.nowMs ∧
    env1000.verify (capUnsignedPayload capA) capA.proof.sig capA.issuer.pubkey = true ∧
    (evalSpend env1000 [capA] revW reqW).2 ≠
      .result { request_id := "req_00000001", decision := .deny,
                reason := "REVOKED", receipt_id := "rcpt_000b" } ∧
    (evalSpend env1000 [capA] revW reqW).2 =
      .result { request_id := "req_00000001", decision := .deny,
                reason := "CAP_EXPIRED", receipt_id := "rcpt_000b" } := by
  have hfind := findCapForAgent_singleton env1000.parseDate revW capA
    reqW.agent_id reqW.agent_pubkey (by decide) (by decide)
  have heval := evalSpend_eq_of_find env1000 [capA] revW reqW capA (by decide) hfind
  refine ⟨by decide, by decide, by decide, by decide, ?_, ?_⟩ <;>
    rw [heval] <;> decide

/-- Witness for the amended C2 at the concrete revoked-and-expired input. -/
theorem revoked_expired_yields_cap_expired_witness :
    (evalSpend env1000 [capA] revW reqW).2 =
      .result { request_id := "req_00000001", decision := .deny,
                reason := "CAP_EXPIRED", receipt_id := "rcpt_000b" } := by
  have hfind := findCapForAgent_singleton env1000.parseDate revW capA
    reqW.agent_id reqW.agent_pubkey (by decide) (by decide)
  exact revoked_expired_yields_cap_expired env1000 [capA] revW reqW capA 900
    hfind (by decide) (by decide) (by decide) (by decide) (by decide)
    (by decide) (by decide)

/-! ## C4: behaviour at the exact expiry instant -/

theorem categoryBlocked_ne_capExpired (s : String) :
    "CATEGORY_BLOCKED:" ++ s ≠ "CAP_EXPIRED" := by
  intro h
  have hlen := congrArg String.length h
  rw [String.length_append] at hlen
  have h1 : ("CATEGORY_BLOCKED:" : String).length = 17 := by decide
  have h2 : ("CAP_EXPIRED" : String).length = 11 := by decide
  omega

theorem spendChecksAfterTime_not_capExpired (env : EvalEnv) (rev : List String)
    (req : ActionRequest) (attempt : Receipt) (total items : Int)
    (cap : CapDoc) (rid : String) :
    (spendChecksAfterTime env rev req attempt total items cap).2 ≠
      .result { request_id := req.request_id, decision := .deny,
                reason := "CAP_EXPIRED", receipt_id := rid } := by
  unfold spendChecksAfterTime
  repeat' split
  all_goals simp [denyOutcome, categoryBlocked_ne_capExpired]

theorem evalSpendCap_not_capExpired_of_not_past (env : EvalEnv)
    (rev : List String) (req : ActionRequest) (attempt : Receipt)
    (total items : Int) (cap : CapDoc) (e : Int) (rid : String)
    (hv : env.verify (capUnsignedPayload cap) cap.proof.sig cap.issuer.pubkey = true)
    (h1 : cap.executor.agent_id = req.agent_id)
    (h2 : cap.executor.agent_pubkey = req.agent_pubkey)
    (hexp : env.parseDate cap.expires_at = some e)
    (he : ¬ e < env.nowMs) :
    (evalSpendCap env rev req attempt total items cap).2 ≠
      .result { request_id := req.request_id, decision := .deny,
                reason := "CAP_EXPIRED", receipt_id := rid } := by
  cases hnb : cap.not_before with
  | none =>
    have hred : evalSpendCap env rev req attempt total items cap =
        spendChecksAfterTime env rev req attempt total items cap := by
      simp [evalSpendCap, hv, h1, h2, hexp, he, hnb]
    rw [hred]
    exact spendChecksAfterTime_not_capExpired env rev req attempt total items cap rid
  | some nb =>
    by_cases hne : nb = ""
    · have hred : evalSpendCap env rev req attempt total items cap =
          spendChecksAfterTime env rev req attempt total items cap := by
        simp [evalSpendCap, hv, h1, h2, hexp, he, hnb, hne]
      rw [hred]
      exact spendChecksAfterTime_not_capExpired env rev req attempt total items cap rid
    · cases hnbp : env.parseDate nb with
      | none => simp [evalSpendCap, hv, h1, h2, hexp, he, hnb, hne, hnbp, denyOutcome]
      | some m =>
        by_cases hm : m > env.nowMs
        · simp [evalSpendCap, hv, h1, h2, hexp, he, hnb, hne, hnbp, hm, denyOutcome]
        · have hred : evalSpendCap env rev req attempt total items cap =
              spendChecksAfterTime env rev req attempt total items cap := by
            simp [evalSpendCap, hv, h1, h2, hexp, he, hnb, hne, hnbp, hm]
          rw [hred]
          exact spendChecksAfterTime_not_capExpired env rev req attempt total items cap rid

/-- C4 (amended).  With a valid signature and executor binding and a
parseable expiry, the pipeline denies CAP_EXPIRED exactly when the parsed
expiry is strictly before now: at now = expires_at the capability is NOT
treated as expired, because the source tests expMs < nowMs. -/
theorem cap_expired_iff_strictly_past
    (env : EvalEnv) (caps : List CapDoc) (rev : List String)
    (req : ActionRequest) (cap : CapDoc) (e : Int)
    (hfind : findCapForAgent env.parseDate rev caps req.agent_id
      req.agent_pubkey = some cap)
    (hsafe : isSafeInteger (cartTotal req.cart) = true)
    (hv : env.verify (capUnsignedPayload cap) cap.proof.sig cap.issuer.pubkey = true)
    (h1 : cap.executor.agent_id = req.agent_id)
    (h2 : cap.executor.agent_pubkey = req.agent_pubkey)
    (hexp : env.parseDate cap.expires_at = some e) :
    (evalSpend env caps rev req).2 =
      .result { request_id := req.request_id, decision := .deny,
                reason := "CAP_EXPIRED", receipt_id := env.freshId 1 } ↔
    e < env.nowMs := by
  rw [evalSpend_eq_of_find env caps rev req cap hsafe hfind]
  constructor
  · intro hres
    by_contra he
    exact evalSpendCap_not_capExpired_of_not_past env rev req _ _ _ cap e
      (env.freshId 1) hv h1 h2 hexp he hres
  · intro he
    simp [evalSpendCap, hv, h1, h2, hexp, he, denyOutcome]

/-- Counterexample to C4 as stated: capC expires at exactly 1000 ms, the
current time of env1000, and the request is ALLOWED, not denied
CAP_EXPIRED — the boundary instant is not treated as expired. -/
theorem cap_expired_iff_strictly_past_counterexample :
    env1000.parseDate capC.expires_at = some 1000 ∧
    env1000.nowMs = 1000 ∧
    (evalSpend env1000 [capC] revNone reqW).2 =
      .result { request_id := "req_00000001", decision := .allow,
                reason := "ALLOWED", receipt_id := "rcpt_000b" } ∧
    (evalSpend env1000 [capC] revNone reqW).2 ≠
      .result { request_id := "req_00000001", decision := .deny,
                reason := "CAP_EXPIRED", receipt_id := "rcpt_000b" } := by
  have hfind := findCapForAgent_singleton env1000.parseDate revNone capC
    reqW.agent_id reqW.agent_pubkey (by decide) (by decide)
  have heval := evalSpend_eq_of_find env1000 [capC] revNone reqW capC (by decide) hfind
  refine ⟨by decide, by decide, ?_, ?_⟩ <;> rw [heval] <;> decide

/-- Witness for the amended C4: applying the equivalence to capA at time
1000 (expiry 900, strictly past) yields CAP_EXPIRED in one direction, and
to capC (expiry exactly 1000) refutes CAP_EXPIRED in the other. -/
theorem cap_expired_iff_strictly_past_witness :
    (evalSpend env1000 [capA] revNone reqW).2 =
      .result { request_id := "req_00000001", decision := .deny,
                reason := "CAP_EXPIRED", receipt_id := "rcpt_000b" } ∧
    ¬ (evalSpend env1000 [capC] revNone reqW).2 =
      .result { request_id := "req_00000001", decision := .deny,
                reason := "CAP_EXPIRED", receipt_id := "rcpt_000b" } := by
  have hfindA := findCapForAgent_singleton env1000.parseDate revNone capA
    reqW.agent_id reqW.agent_pubkey (by decide) (by decide)
  have hfindC := findCapForAgent_singleton env1000.parseDate revNone capC
    reqW.agent_id reqW.agent_pubkey (by decide) (by decide)
  constructor
  · exact (cap_expired_iff_strictly_past env1000 [capA] revNone reqW capA 900
      hfindA (by decide) (by decide) (by decide) (by decide) (by decide)).mpr
      (by decide)
  · intro hres
    have := (cap_expired_iff_strictly_past env1000 [capC] revNone reqW capC 1000
      hfindC (by decide) (by decide) (by decide) (by decide) (by decide)).mp hres
    have hnow : env1000.nowMs = 1000 := by decide
    omega

/-! ## C3 and C6: the missing action-applicability narrowing -/

/-- C3 (code bug).  A schema-valid spend request that passes the
amount-safety check and selects a capability with tool-call-shaped
constraints (valid signature, executor binding, time, not revoked) appends
only the ACTION_ATTEMPT receipt: the handler throws a TypeError at the
vendor check before emitting any ACTION_ALLOWED or ACTION_DENIED receipt
and returns no ActionResult, violating the attempt-then-decision audit
invariant. -/
theorem attempt_without_decision_bug :
    validateActionRequest (fun _ => true) reqX = some reqX ∧
    isSafeInteger (cartTotal reqX.cart) = true ∧
    (evalSpend envW [capT] revNone reqX).1 =
      [attemptReceipt envW reqX 1198 2] ∧
    ((evalSpend envW [capT] revNone reqX).1.filter (fun r =>
      r.event == "ACTION_ALLOWED" || r.event == "ACTION_DENIED")) = [] ∧
    (evalSpend envW [capT] revNone reqX).2 = .typeError := by
  have hfind := findCapForAgent_singleton envW.parseDate revNone capT
    reqX.agent_id reqX.agent_pubkey (by decide) (by decide)
  have heval := evalSpend_eq_of_find envW [capT] revNone reqX capT (by decide) hfind
  refine ⟨by decide, by decide, ?_, ?_, ?_⟩ <;> rw [heval] <;> decide

/-- C6 (code bug).  The pipeline contains no action-applicability check: a
capability whose actions do not contain spend and whose constraints are not
spend-shaped is never denied ACTION_NOT_ALLOWED; after the revocation check
the handler reads constraints.allowed_vendors without narrowing and throws
a TypeError. -/
theorem action_not_allowed_missing_bug :
    capT.actions.contains "spend" = false ∧
    isRevoked revNone capT.cap_id = false ∧
    (evalSpend envW [capT] revNone reqY).2 = .typeError ∧
    (evalSpend envW [capT] revNone reqY).2 ≠
      .result { request_id := "req_00000003", decision := .deny,
                reason := "ACTION_NOT_ALLOWED", receipt_id := "rcpt_000b" } := by
  have hfind := findCapForAgent_singleton envW.parseDate revNone capT
    reqY.agent_id reqY.agent_pubkey (by decide) (by decide)
  have heval := evalSpend_eq_of_find envW [capT] revNone reqY capT (by decide) hfind
  refine ⟨by decide, by decide, ?_, ?_⟩ <;> rw [heval] <;> decide

/-! ## C9: issuer key regeneration and signature verification -/

theorem categoryBlocked_ne_badSignature (s : String) :
    "CATEGORY_BLOCKED:" ++ s ≠ "BAD_SIGNATURE" := by
  intro h
  have hlen := congrArg String.length h
  rw [String.length_append] at hlen
  have h1 : ("CATEGORY_BLOCKED:" : String).length = 17 := by decide
  have h2 : ("BAD_SIGNATURE" : String).length = 13 := by decide
  omega

theorem spendChecksAfterTime_not_badSignature (env : EvalEnv)
    (rev : List String) (req : ActionRequest) (attempt : Receipt)
    (total items : Int) (cap : CapDoc) (rid : String) :
    (spendChecksAfterTime env rev req attempt total items cap).2 ≠
      .result { request_id := req.request_id, decision := .deny,
                reason := "BAD_SIGNATURE", receipt_id := rid } := by
  unfold spendChecksAfterTime
  repeat' split
  all_goals simp [denyOutcome, categoryBlocked_ne_badSignature]

/-- If the signature verification of the selected capability succeeds, the
pipeline can never surface BAD_SIGNATURE: that reason arises only from the
verify-false branch. -/
theorem evalSpendCap_verified_not_badSignature (env : EvalEnv)
    (rev : List String) (req : ActionRequest) (attempt : Receipt)
    (total items : Int) (cap : CapDoc) (rid : String)
    (hv : env.verify (capUnsignedPayload cap) cap.proof.sig cap.issuer.pubkey = true) :
    (evalSpendCap env rev req attempt total items cap).2 ≠
      .result { request_id := req.request_id, decision := .deny,
                reason := "BAD_SIGNATURE", receipt_id := rid } := by
  cases hx : (cap.executor.agent_id != req.agent_id ||
      cap.executor.agent_pubkey != req.agent_pubkey) with
  | true => simp [evalSpendCap, hv, hx, denyOutcome]
  | false =>
    cases hexp : env.parseDate cap.expires_at with
    | none => simp [evalSpendCap, hv, hx, hexp, denyOutcome]
    | some e =>
      by_cases he : e < env.nowMs
      · simp [evalSpendCap, hv, hx, hexp, he, denyOutcome]
      · cases hnb : cap.not_before with
        | none =>
          have hred : evalSpendCap env rev req attempt total items cap =
              spendChecksAfterTime env rev req attempt total items cap := by
            simp [evalSpendCap, hv, hx, hexp, he, hnb]
          rw [hred]
          exact spendChecksAfterTime_not_badSignature env rev req attempt total items cap rid
        | some nb =>
          by_cases hne : nb == ""
          · have hred : evalSpendCap env rev req attempt total items cap =
                spendChecksAfterTime env rev req attempt total items cap := by
              simp [evalSpendCap, hv, hx, hexp, he, hnb, hne]
            rw [hred]
            exact spendChecksAfterTime_not_badSignature env rev req attempt total items cap rid
          · cases hnbp : env.parseDate nb with
            | none => simp [evalSpendCap, hv, hx, hexp, he, hnb, hne, hnbp, denyOutcome]
            | some m =>
              by_cases hm : m > env.nowMs
              · simp [evalSpendCap, hv, hx, hexp, he, hnb, hne, hnbp, hm, denyOutcome]
              · have hred : evalSpendCap env rev req attempt total items cap =
                    spendChecksAfterTime env rev req attempt total items cap := by
                  simp [evalSpendCap, hv, hx, hexp, he, hnb, hne, hnbp, hm]
                rw [hred]
                exact spendChecksAfterTime_not_badSignature env rev req attempt total items cap rid

/-- C9 (amended).  When the persisted issuer-keys file exists but fails to
parse, loadOrCreateIssuerKeys silently generates a fresh keypair and
overwrites the file, so the signing identity is not preserved.  However,
enforcement verifies each capability against the issuer.pubkey embedded in
the capability itself, never against the process keypair: a capability
whose embedded key still verifies its signature is not denied
BAD_SIGNATURE after a key regeneration. -/
theorem issuer_key_regeneration_amended :
    (∀ (content : String) (parseKeys : String → Option IssuerKeys)
       (generate : Unit → IssuerKeys), parseKeys content = none →
       loadOrCreateIssuerKeys (some content) parseKeys generate =
         (generate (), some (generate ()))) ∧
    (∀ (env : EvalEnv) (caps : List CapDoc) (rev : List String)
       (req : ActionRequest) (cap : CapDoc) (rid : String),
       findCapForAgent env.parseDate rev caps req.agent_id req.agent_pubkey = some cap →
       isSafeInteger (cartTotal req.cart) = true →
       env.verify (capUnsignedPayload cap) cap.proof.sig cap.issuer.pubkey = true →
       (evalSpend env caps rev req).2 ≠
         .result { request_id := req.request_id, decision := .deny,
                   reason := "BAD_SIGNATURE", receipt_id := rid }) := by
  constructor
  · intro content parseKeys generate hfail
    simp only [loadOrCreateIssuerKeys, hfail]
  · intro env caps rev req cap rid hfind hsafe hv
    rw [evalSpend_eq_of_find env caps rev req cap hsafe hfind]
    exact evalSpendCap_verified_not_badSignature env rev req _ _ _ cap rid hv

/-- Counterexample to C9 as stated: a corrupt keys file makes
loadOrCreateIssuerKeys regenerate and overwrite (that much the claim gets
right), but the capability signed by the previous key, whose old issuer
pubkey ISSPK is embedded in the capability, is still ALLOWED at
enforcement — not denied BAD_SIGNATURE. -/
theorem issuer_key_regeneration_counterexample :
    loadOrCreateIssuerKeys (some "corrupt") parseFailW genW =
      ({ publicKeyB64 := "NEWPK", secretKeyB64 := "NEWSK" },
       some { publicKeyB64 := "NEWPK", secretKeyB64 := "NEWSK" }) ∧
    (genW ()).publicKeyB64 ≠ capA.issuer.pubkey ∧
    (evalSpend envW [capA] revNone reqW).2 =
      .result { request_id := "req_00000001", decision := .allow,
                reason := "ALLOWED", receipt_id := "rcpt_000b" } ∧
    (evalSpend envW [capA] revNone reqW).2 ≠
      .result { request_id := "req_00000001", decision := .deny,
                reason := "BAD_SIGNATURE", receipt_id := "rcpt_000b" } := by
  have hfind := findCapForAgent_singleton envW.parseDate revNone capA
    reqW.agent_id reqW.agent_pubkey (by decide) (by decide)
  have heval := evalSpend_eq_of_find envW [capA] revNone reqW capA (by decide) hfind
  refine ⟨by decide, by decide, ?_, ?_⟩ <;> rw [heval] <;> decide

/-- Witness for the amended C9: the regeneration equation at the concrete
corrupt file, and the BAD_SIGNATURE exclusion at the concrete verified
capability. -/
theorem issuer_key_regeneration_witness :
    loadOrCreateIssuerKeys (some "corrupt") parseFailW genW =
      (genW (), some (genW ())) ∧
    (evalSpend envW [capA] revNone reqW).2 ≠
      .result { request_id := "req_00000001", decision := .deny,
                reason := "BAD_SIGNATURE", receipt_id := "rcpt_000b" } := by
  have hfind := findCapForAgent_singleton envW.parseDate revNone capA
    reqW.agent_id reqW.agent_pubkey (by decide) (by decide)
  constructor
  · exact issuer_key_regeneration_amended.1 "corrupt" parseFailW genW rfl
  · exact issuer_key_regeneration_amended.2 envW [capA] revNone reqW capA
      "rcpt_000b" hfind (by decide) (by decide)

/-! ## Cart validation lemmas (C5, C10) -/

theorem cartTotal_cons (i : CartItem) (l : List CartItem) :
    cartTotal (i :: l) = i.price_cents * i.qty + cartTotal l := by
  unfold cartTotal
  rw [List.foldl_cons]
  have hshift : ∀ (l : List CartItem) (acc : Int),
      l.foldl (fun s j => s + j.price_cents * j.qty) acc =
        acc + l.foldl (fun s j => s + j.price_cents * j.qty) 0 := by
    intro l
    induction l with
    | nil => intro acc; simp
    | cons x xs ih =>
      intro acc
      rw [List.foldl_cons, List.foldl_cons, ih, ih (0 + x.price_cents * x.qty)]
      ring
  rw [hshift]
  ring

theorem validateCartItem_spec {i i' : CartItem}
    (h : validateCartItem i = some i') :
    i'.price_cents = i.price_cents ∧ i'.qty = i.qty ∧
    1 ≤ i.price_cents ∧ i.price_cents ≤ 5000000 ∧
    1 ≤ i.qty ∧ i.qty ≤ 1000 := by
  unfold validateCartItem validateCartItem.validateCartItemRest at h
  repeat' split at h
  all_goals try exact Option.noConfusion h
  all_goals simp only [Option.some.injEq] at h
  all_goals subst h
  all_goals exact ⟨rfl, rfl, by omega, by omega, by omega, by omega⟩

theorem validateCart_spec : ∀ {l l' : List CartItem},
    validateCart l = some l' →
    l'.length = l.length ∧ cartTotal l' = cartTotal l ∧
    ∀ i ∈ l', 1 ≤ i.price_cents ∧ i.price_cents ≤ 5000000 ∧
      1 ≤ i.qty ∧ i.qty ≤ 1000 := by
  intro l
  induction l with
  | nil =>
    intro l' h
    simp only [validateCart, Option.some.injEq] at h
    subst h
    simp [cartTotal]
  | cons i rest ih =>
    intro l' h
    unfold validateCart at h
    split at h
    · rename_i i' rest' hitem hrest
      simp only [Option.some.injEq] at h
      subst h
      obtain ⟨hp, hq, hb1, hb2, hb3, hb4⟩ := validateCartItem_spec hitem
      obtain ⟨hlen, htot, hall⟩ := ih hrest
      refine ⟨by simp [hlen], ?_, ?_⟩
      · rw [cartTotal_cons, cartTotal_cons, hp, hq, htot]
      · intro x hx
        rcases List.mem_cons.mp hx with rfl | hx'
        · exact ⟨hp ▸ hb1, hp ▸ hb2, hq ▸ hb3, hq ▸ hb4⟩
        · exact hall x hx'
    · exact absurd h (by simp)

theorem cartTotal_le_of_bounds : ∀ (l : List CartItem),
    (∀ i ∈ l, 1 ≤ i.price_cents ∧ i.price_cents ≤ 5000000 ∧
      1 ≤ i.qty ∧ i.qty ≤ 1000) →
    0 ≤ cartTotal l ∧ cartTotal l ≤ 5000000000 * l.length := by
  intro l
  induction l with
  | nil => intro _; simp [cartTotal]
  | cons i rest ih =>
    intro hb
    have hi := hb i (by simp)
    have hrest := ih (fun x hx => hb x (List.mem_cons_of_mem i hx))
    rw [cartTotal_cons]
    have hline1 : 0 ≤ i.price_cents * i.qty :=
      mul_nonneg (by omega) (by omega)
    have hline2 : i.price_cents * i.qty ≤ 5000000000 := by
      calc i.price_cents * i.qty ≤ 5000000 * i.qty := by
            exact mul_le_mul_of_nonneg_right hi.2.1 (by omega)
        _ ≤ 5000000 * 1000 := by
            exact mul_le_mul_of_nonneg_left hi.2.2.2 (by omega)
        _ = 5000000000 := by norm_num
    simp only [List.length_cons]
    constructor
    · omega
    · have : (5000000000 : Int) * (rest.length + 1) =
          5000000000 * rest.length + 5000000000 := by ring
      omega

theorem validateActionRequest_cart {isdt : String → Bool}
    {raw req : ActionRequest} (h : validateActionRequest isdt raw = some req) :
    ∃ cart, validateCart raw.cart = some cart ∧ req.cart = cart ∧
      1 ≤ cart.length ∧ cart.length ≤ 100 := by
  unfold validateActionRequest at h
  repeat' split at h
  all_goals try exact Option.noConfusion h
  simp only [Option.some.injEq] at h
  subst h
  rename_i xc cart hcart hlen xt total htot hpos
  exact ⟨cart, hcart, rfl, hlen.1, hlen.2⟩

theorem evalSpendCap_not_overflow (env : EvalEnv) (rev : List String)
    (req : ActionRequest) (attempt : Receipt) (total items : Int)
    (cap : CapDoc) :
    (evalSpendCap env rev req attempt total items cap).2 ≠ .amountOverflow := by
  unfold evalSpendCap spendChecksAfterTime
  repeat' split
  all_goals simp [denyOutcome]

/-! ## C10: schema-valid totals are safe by construction -/

/-- C10.  Every request accepted by the action-request schema has a cart
total of at most 100 lines times 5000000 cents times 1000 quantity, so at
most 5 * 10^11, far below 2^53; in particular the total is a safe integer,
and the AMOUNT_OVERFLOW branch of the handler is unreachable for any input
that went through schema validation. -/
theorem schema_valid_total_safe :
    (∀ (isdt : String → Bool) (raw req : ActionRequest),
       validateActionRequest isdt raw = some req →
       0 ≤ cartTotal req.cart ∧ cartTotal req.cart ≤ 500000000000 ∧
       isSafeInteger (cartTotal req.cart) = true) ∧
    (∀ (env : EvalEnv) (caps : List CapDoc) (rev : List String)
       (isdt : String → Bool) (raw : ActionRequest),
       (handleActionRequest env caps rev isdt raw).2 ≠ .amountOverflow) := by
  have hmain : ∀ (isdt : String → Bool) (raw req : ActionRequest),
      validateActionRequest isdt raw = some req →
      0 ≤ cartTotal req.cart ∧ cartTotal req.cart ≤ 500000000000 ∧
      isSafeInteger (cartTotal req.cart) = true := by
    intro isdt raw req h
    obtain ⟨cart, hcart, hreq, hlen1, hlen2⟩ := validateActionRequest_cart h
    obtain ⟨_, _, hall⟩ := validateCart_spec hcart
    obtain ⟨hnn, hle⟩ := cartTotal_le_of_bounds cart hall
    have hbound : cartTotal cart ≤ 500000000000 := by
      have : (5000000000 : Int) * cart.length ≤ 5000000000 * 100 := by
        have : (cart.length : Int) ≤ 100 := by exact_mod_cast hlen2
        exact mul_le_mul_of_nonneg_left this (by norm_num)
      omega
    rw [hreq]
    refine ⟨hnn, hbound, ?_⟩
    unfold isSafeInteger
    simp only [decide_eq_true_eq]
    omega
  refine ⟨hmain, ?_⟩
  intro env caps rev isdt raw
  unfold handleActionRequest
  cases hval : validateActionRequest isdt raw with
  | none => simp
  | some req =>
    simp only []
    obtain ⟨_, _, hsafe⟩ := hmain isdt raw req hval
    rw [evalSpend_eq_of_safe env caps rev req hsafe]
    cases findCapForAgent env.parseDate rev caps req.agent_id req.agent_pubkey with
    | none => simp [denyOutcome]
    | some cap => exact evalSpendCap_not_overflow env rev req _ _ _ cap

/-- Witness for C10 at the concrete schema-valid request reqX. -/
theorem schema_valid_total_safe_witness :
    validateActionRequest (fun _ => true) reqX = some reqX ∧
    0 ≤ cartTotal reqX.cart ∧ cartTotal reqX.cart ≤ 500000000000 ∧
    isSafeInteger (cartTotal reqX.cart) = true ∧
    (handleActionRequest envW [capA] revNone (fun _ => true) reqX).2 ≠
      .amountOverflow := by
  have hval : validateActionRequest (fun _ => true) reqX = some reqX := by decide
  obtain ⟨h1, h2, h3⟩ := schema_valid_total_safe.1 (fun _ => true) reqX reqX hval
  exact ⟨hval, h1, h2, h3,
    schema_valid_total_safe.2 envW [capA] revNone (fun _ => true) reqX⟩

/-! ## C5: unsafe totals are rejected before any receipt -/

/-- C5 (amended).  A request whose cart total is not a safe integer never
reaches the handler body: the schema rejects it (its items necessarily
violate the per-item bounds whose product bound keeps totals safe), so the
transport returns INVALID_INPUT, no receipt at all is appended — in
particular no ACTION_ATTEMPT remains — and AMOUNT_OVERFLOW is not the
error surfaced.  The handler emits ACTION_ATTEMPT only after its own
safe-integer check, so even that branch would leave no attempt receipt. -/
theorem unsafe_total_rejected (env : EvalEnv) (caps : List CapDoc)
    (rev : List String) (isdt : String → Bool) (raw : ActionRequest)
    (hbad : isSafeInteger (cartTotal raw.cart) = false) :
    handleActionRequest env caps rev isdt raw = ([], .invalidInput) := by
  unfold handleActionRequest
  cases hval : validateActionRequest isdt raw with
  | none => rfl
  | some req =>
    exfalso
    obtain ⟨cart, hcart, hreq, _, _⟩ := validateActionRequest_cart hval
    obtain ⟨_, htot, _⟩ := validateCart_spec hcart
    have hsafe := (schema_valid_total_safe.1 isdt raw req hval).2.2
    rw [hreq, htot] at hsafe
    rw [hbad] at hsafe
    exact Bool.false_ne_true hsafe

/-- Counterexample to C5 as stated: a request with an unsafe cart total is
rejected with INVALID_INPUT, not AMOUNT_OVERFLOW, and the audit log gains
nothing — no ACTION_ATTEMPT receipt remains. -/
theorem unsafe_total_rejected_counterexample :
    isSafeInteger (cartTotal rawBad.cart) = false ∧
    handleActionRequest envW [capA] revNone (fun _ => true) rawBad =
      ([], .invalidInput) ∧
    (handleActionRequest envW [capA] revNone (fun _ => true) rawBad).2 ≠
      .amountOverflow ∧
    (handleActionRequest envW [capA] revNone (fun _ => true) rawBad).1 = [] := by
  refine ⟨by decide, by decide, by decide, by decide⟩

/-- Witness for the amended C5 at the concrete unsafe request, with an
empty capability store. -/
theorem unsafe_total_rejected_witness :
    isSafeInteger (cartTotal rawBad.cart) = false ∧
    handleActionRequest envW [] revNone (fun _ => true) rawBad =
      ([], .invalidInput) := by
  have hbad : isSafeInteger (cartTotal rawBad.cart) = false := by decide
  exact ⟨hbad,
    unsafe_total_rejected envW [] revNone (fun _ => true) rawBad hbad⟩

/-! ## C8: determinism of the canonical serializer -/

theorem sortKeysPairs_eq_map (kvs : List (String × Json)) :
    sortKeysPairs kvs = kvs.map (fun p => (p.1, sortKeys p.2)) := by
  induction kvs with
  | nil => simp [sortKeysPairs]
  | cons p ps ih => simp [sortKeysPairs, ih]

theorem keys_sortKeysPairs (kvs : List (String × Json)) :
    (sortKeysPairs kvs).map Prod.fst = kvs.map Prod.fst := by
  rw [sortKeysPairs_eq_map, List.map_map]
  rfl

theorem pairKeyLe_trans : ∀ (a b c : String × Json),
    decide (a.1 ≤ b.1) = true → decide (b.1 ≤ c.1) = true →
    decide (a.1 ≤ c.1) = true := by
  intro a b c h1 h2
  simp only [decide_eq_true_eq] at h1 h2 ⊢
  exact le_trans h1 h2

theorem pairKeyLe_total : ∀ (a b : String × Json),
    (decide (a.1 ≤ b.1) || decide (b.1 ≤ a.1)) = true := by
  intro a b
  simp only [Bool.or_eq_true, decide_eq_true_eq]
  exact le_total a.1 b.1

theorem sortPairs_perm (l : List (String × Json)) : (sortPairs l).Perm l :=
  List.mergeSort_perm l _

theorem sortPairs_sorted (l : List (String × Json)) :
    List.Pairwise (fun p q : String × Json => p.1 ≤ q.1) (sortPairs l) := by
  have := List.sorted_mergeSort pairKeyLe_trans pairKeyLe_total l
  exact this.imp (fun h => of_decide_eq_true h)

/-- Two entry lists that are permutations of each other and have no
duplicate keys sort to the same list: the sort is by key, the keys are
strictly increasing in both results, and strictly sorted permutations are
equal. -/
theorem sortPairs_eq_of_perm {l₁ l₂ : List (String × Json)}
    (h : l₁.Perm l₂) (hnd : (l₁.map Prod.fst).Nodup) :
    sortPairs l₁ = sortPairs l₂ := by
  have hp : (sortPairs l₁).Perm (sortPairs l₂) :=
    ((sortPairs_perm l₁).trans h).trans (sortPairs_perm l₂).symm
  have hnd1 : ((sortPairs l₁).map Prod.fst).Nodup :=
    ((sortPairs_perm l₁).map Prod.fst).nodup_iff.mpr hnd
  have hnd2 : ((sortPairs l₂).map Prod.fst).Nodup :=
    (hp.map Prod.fst).nodup_iff.mp hnd1
  have hstrict : ∀ (l : List (String × Json)),
      List.Pairwise (fun p q : String × Json => p.1 ≤ q.1) l →
      (l.map Prod.fst).Nodup →
      List.Pairwise (fun p q : String × Json => p.1 < q.1) l := by
    intro l hle hn
    have hne : List.Pairwise (fun p q : String × Json => p.1 ≠ q.1) l :=
      List.pairwise_map.mp hn
    exact (hle.and hne).imp (fun h => lt_of_le_of_ne h.1 h.2)
  haveI : IsAntisymm (String × Json) (fun p q => p.1 < q.1) :=
    ⟨fun a b h1 h2 => absurd (h1.trans h2) (lt_irrefl _)⟩
  exact List.eq_of_perm_of_sorted hp
    (hstrict _ (sortPairs_sorted l₁) hnd1)
    (hstrict _ (sortPairs_sorted l₂) hnd2)

/-- The heart of C8: sortKeys is invariant under reordering object keys,
given that no object has duplicate keys. -/
theorem sortKeys_eq_of_keyPerm : ∀ {v w : Json},
    JsonKeyPerm v w → NoDupKeys v → sortKeys v = sortKeys w := by
  intro v w h
  induction h with
  | nullEq => intro _; rfl
  | boolEq b => intro _; rfl
  | numEq n => intro _; rfl
  | strEq s => intro _; rfl
  | arrNil => intro _; rfl
  | @arrCons x y xs ys hxy hxs ihxy ihxs =>
    intro hnd
    cases hnd with
    | arr hall =>
      have h1 := ihxy (hall x (by simp))
      have h2 := ihxs (NoDupKeys.arr (fun z hz => hall z (by simp [hz])))
      simp only [sortKeys, sortKeysList, Json.arr.injEq] at h2 ⊢
      rw [h1, h2]
  | objNil => intro _; rfl
  | @objCons k v1 v1' kvs kvs' hv hobj ihv ihobj =>
    intro hnd
    cases hnd with
    | obj hndk hall =>
      have h1 := ihv (hall (k, v1) (by simp))
      have hndtail : NoDupKeys (.obj kvs) := by
        refine NoDupKeys.obj ?_ (fun p hp => hall p (by simp [hp]))
        simp only [List.map_cons, List.nodup_cons] at hndk
        exact hndk.2
      have h2 := ihobj hndtail
      simp only [sortKeys, Json.obj.injEq] at h2 ⊢
      simp only [sortKeysPairs]
      rw [h1]
      apply sortPairs_eq_of_perm
      · apply List.Perm.cons
        exact ((sortPairs_perm _).symm.trans (h2 ▸ sortPairs_perm _))
      · simp only [List.map_cons, List.nodup_cons, keys_sortKeysPairs]
        simp only [List.map_cons, List.nodup_cons] at hndk
        exact hndk
  | @objReorder kvs kvs' w2 hperm hrest ih =>
    intro hnd
    cases hnd with
    | obj hndk hall =>
      have hnd' : NoDupKeys (.obj kvs') := by
        refine NoDupKeys.obj ((hperm.map Prod.fst).nodup_iff.mp hndk) ?_
        intro p hp
        exact hall p (hperm.mem_iff.mpr hp)
      rw [← ih hnd']
      simp only [sortKeys, Json.obj.injEq]
      apply sortPairs_eq_of_perm
      · rw [sortKeysPairs_eq_map, sortKeysPairs_eq_map]
        exact hperm.map _
      · rw [keys_sortKeysPairs]
        exact hndk

/-- C8.  Canonical serialization is deterministic under key reordering:
for every signing domain and every pair of JSON values that are deep-equal
up to object key order (with no duplicate keys), the canonical signing
message is byte-for-byte identical, because object keys are sorted at
every nesting level while array order is preserved. -/
theorem canonicalize_deterministic (d : SigningDomain) {v w : Json}
    (h : JsonKeyPerm v w) (hnd : NoDupKeys v) :
    canonicalMessage d v = canonicalMessage d w := by
  unfold canonicalMessage stableStringify
  rw [sortKeys_eq_of_keyPerm h hnd]

/-- Witness for C8 at a concrete pair of two-level objects differing only
in key order at both levels. -/
theorem canonicalize_deterministic_witness :
    JsonKeyPerm vEx wEx ∧ NoDupKeys vEx ∧
    canonicalMessage .capdoc vEx = canonicalMessage .capdoc wEx := by
  have hinner : JsonKeyPerm vExInner wExInner :=
    .objReorder (List.Perm.swap ("x", Json.null) ("y", Json.str "s") [])
      (.objCons .nullEq (.objCons (.strEq "s") .objNil))
  have hmain : JsonKeyPerm vEx wEx :=
    .objReorder (List.Perm.swap ("a", vExInner) ("b", Json.num 1) [])
      (.objCons hinner (.objCons (.numEq 1) .objNil))
  have hndInner : NoDupKeys vExInner := by
    refine NoDupKeys.obj (by decide) ?_
    intro p hp
    simp only [List.mem_cons, List.not_mem_nil, or_false] at hp
    rcases hp with rfl | rfl
    · exact NoDupKeys.str _
    · exact NoDupKeys.null
  have hnd : NoDupKeys vEx := by
    refine NoDupKeys.obj (by decide) ?_
    intro p hp
    simp only [List.mem_cons, List.not_mem_nil, or_false] at hp
    rcases hp with rfl | rfl
    · exact NoDupKeys.num _
    · exact hndInner
  exact ⟨hmain, hnd, canonicalize_deterministic .capdoc hmain hnd⟩

end CapNet
